import Mathlib

/-!
Shallow embedding of the devLens proxy core (proxy server and certificate
module) together with proofs of the specification claims.

The embedding covers:
* decimal rendering of JavaScript numbers (for the `req_<n>` exchange ids);
* the certificate module (`generateCACert`, `generateHostCert`,
  `getCACertPath`) over an explicit file-system state;
* the proxy server handlers (`handleRequest`, `handleConnect`,
  `handleHttpsTunnel`, `handleHttpsWithMitm`, `handleHttpsRequest`) as pure
  functions from an environment scenario to the list of observable events
  they produce plus the final captured exchange;
* the process-level id counter (`requestId` is a per-`ProxyServer` field and
  `startProxy` constructs a fresh server).
-/

namespace DevLens

/-! ### Decimal rendering of JavaScript numbers

The source interpolates the counter into a template string
(`req_${++this.requestId}`).  JavaScript renders a nonnegative integer in
decimal; `natToString` is that rendering, written with explicit fuel so that
it evaluates by kernel reduction. -/

/-- Little-endian decimal digits of `n`, with explicit fuel (`toDigitsAux n n`
is always enough fuel). -/
def toDigitsAux : Nat → Nat → List Nat
  | 0, _ => []
  | fuel + 1, n => if n = 0 then [] else n % 10 :: toDigitsAux fuel (n / 10)

/-- Little-endian decimal digits of `n` (empty for `0`). -/
def toDecimalDigits (n : Nat) : List Nat := toDigitsAux n n

/-- Decimal rendering of a nonnegative integer, as JavaScript renders it. -/
def natToString (n : Nat) : String :=
  if n = 0 then "0" else ⟨(toDecimalDigits n).reverse.map Nat.digitChar⟩

/-- Value of a little-endian digit list. -/
def ofDigits : List Nat → Nat
  | [] => 0
  | d :: ds => d + 10 * ofDigits ds

/-- Value of a big-endian decimal digit character list. -/
def decDigitsVal (cs : List Char) : Nat :=
  cs.foldl (fun a c => a * 10 + (c.toNat - 48)) 0

/-- The exchange id string assigned for counter value `n`:
`` `req_${n}` `` in the source. -/
def renderId (n : Nat) : String := "req_" ++ natToString n

/-- The numeric part of an exchange id `req_<n>` (decimal value of the
characters after the four-character `req_` marker). -/
def idNum (s : String) : Nat := decDigitsVal (s.data.drop 4)

/-! ### Certificate module (source file `certificate.ts`)

The module keeps the CA and per-host leaf material under
`~/.devlens/certs`.  The file system is modelled explicitly: a flag for the
certificate directory plus an association list from structured path names to
file contents (most recent write first).  Key and certificate material
produced by the `openssl` subprocesses is modelled by a seed counter that
yields a fresh content string on each generation step, and every
key-generation/signing subprocess invocation is logged so that "does not
invoke the signing step again" is an inspectable fact. -/

/-- Structured name of a file in the certificate directory.  The concrete
path string is produced by `CertPath.toPathStr`. -/
inductive CertPath where
  | caKey : CertPath
  | caCert : CertPath
  | caSrl : CertPath
  | hostKey (h : String) : CertPath
  | hostCert (h : String) : CertPath
  | hostCsr (h : String) : CertPath
  | hostExt (h : String) : CertPath
deriving DecidableEq, Repr

/-- `CERT_DIR = path.join(os.homedir(), '.devlens', 'certs')`. -/
def certDirStr (home : String) : String := home ++ "/.devlens/certs"

/-- Concrete path string of a certificate file. -/
def CertPath.toPathStr (home : String) : CertPath → String
  | .caKey => certDirStr home ++ "/ca.key"
  | .caCert => certDirStr home ++ "/ca.crt"
  | .caSrl => certDirStr home ++ "/ca.srl"
  | .hostKey h => certDirStr home ++ "/" ++ h ++ ".key"
  | .hostCert h => certDirStr home ++ "/" ++ h ++ ".crt"
  | .hostCsr h => certDirStr home ++ "/" ++ h ++ ".csr"
  | .hostExt h => certDirStr home ++ "/" ++ h ++ ".ext"

/-- File-system state seen by the certificate module. -/
structure CertFS where
  dirCreated : Bool
  files : List (CertPath × String)
deriving DecidableEq, Repr

/-- `fs.existsSync` on a certificate file. -/
def CertFS.existsFile (fs : CertFS) (p : CertPath) : Bool :=
  fs.files.any (fun e => e.1 == p)

/-- `fs.writeFileSync` (and the file output of an `openssl` invocation):
the new entry shadows any previous content for the same path. -/
def CertFS.writeFile (fs : CertFS) (p : CertPath) (c : String) : CertFS :=
  { fs with files := (p, c) :: fs.files }

/-- `fs.unlinkSync`. -/
def CertFS.unlink (fs : CertFS) (p : CertPath) : CertFS :=
  { fs with files := fs.files.filter (fun e => !(e.1 == p)) }

/-- State threaded through the certificate module: the file system plus a
seed for fresh cryptographic material. -/
structure CertState where
  fs : CertFS
  seed : Nat
deriving DecidableEq, Repr

/-- A fresh PEM blob (the output of one `openssl` generation step). -/
def freshPem (st : CertState) : String × CertState :=
  ("pem-" ++ natToString st.seed, { st with seed := st.seed + 1 })

/-- One key-generation or signing subprocess invocation. -/
inductive SignOp where
  | genKey (p : CertPath) : SignOp
  | selfSignCA (p : CertPath) : SignOp
  | makeCsr (p : CertPath) : SignOp
  | signLeaf (p : CertPath) : SignOp
deriving DecidableEq, Repr

/-- `ensureCertDir()`: create the certificate directory if absent. -/
def ensureCertDir (st : CertState) : CertState :=
  if st.fs.dirCreated then st else { st with fs := { st.fs with dirCreated := true } }

/-- Result record of `generateCACert` (interface `CertPaths`). -/
structure CertPaths where
  key : String
  cert : String
  dir : String
deriving DecidableEq, Repr

/-- `generateCACert()`: idempotent CA bootstrap.  Returns the path record,
the updated state, and the list of subprocess invocations performed. -/
def generateCACert (home : String) (st0 : CertState) :
    CertPaths × CertState × List SignOp :=
  let st := ensureCertDir st0
  if st.fs.existsFile .caKey && st.fs.existsFile .caCert then
    ({ key := CertPath.caKey.toPathStr home, cert := CertPath.caCert.toPathStr home,
       dir := certDirStr home }, st, [])
  else
    let st1 := (freshPem st).2
    let st2 := { st1 with fs := st1.fs.writeFile .caKey (freshPem st).1 }
    let st3 := (freshPem st2).2
    let st4 := { st3 with fs := st3.fs.writeFile .caCert (freshPem st2).1 }
    ({ key := CertPath.caKey.toPathStr home, cert := CertPath.caCert.toPathStr home,
       dir := certDirStr home }, st4, [.genKey .caKey, .selfSignCA .caCert])

/-- `generateHostCert(hostname)`: cached per-hostname leaf issuance.
On a cache miss the module generates a key, a CSR and an extension file,
signs the leaf with the CA (which also writes the CA serial file via
`-CAcreateserial`), and removes the CSR and extension artifacts. -/
def generateHostCert (home hostname : String) (st0 : CertState) :
    (String × String) × CertState × List SignOp :=
  let st := ensureCertDir st0
  let hostKeyStr := (CertPath.hostKey hostname).toPathStr home
  let hostCertStr := (CertPath.hostCert hostname).toPathStr home
  if st.fs.existsFile (.hostKey hostname) && st.fs.existsFile (.hostCert hostname) then
    ((hostKeyStr, hostCertStr), st, [])
  else
    let st1 := (freshPem st).2
    let st2 := { st1 with fs := st1.fs.writeFile (.hostKey hostname) (freshPem st).1 }
    let st3 := (freshPem st2).2
    let st4 := { st3 with fs := st3.fs.writeFile (.hostCsr hostname) (freshPem st2).1 }
    let extContent :=
      "authorityKeyIdentifier=keyid,issuer\nbasicConstraints=CA:FALSE\n" ++
      "keyUsage = digitalSignature, nonRepudiation, keyEncipherment, dataEncipherment\n" ++
      "subjectAltName = @alt_names\n\n[alt_names]\nDNS.1 = " ++ hostname ++ "\n"
    let st5 := { st4 with fs := st4.fs.writeFile (.hostExt hostname) extContent }
    let st6 := (freshPem st5).2
    let st7 := { st6 with fs := st6.fs.writeFile (.hostCert hostname) (freshPem st5).1 }
    let st8 := (freshPem st7).2
    let st9 := { st8 with fs := st8.fs.writeFile .caSrl (freshPem st7).1 }
    let st10 := { st9 with fs := st9.fs.unlink (.hostCsr hostname) }
    let st11 := { st10 with fs := st10.fs.unlink (.hostExt hostname) }
    ((hostKeyStr, hostCertStr), st11,
     [.genKey (.hostKey hostname), .makeCsr (.hostCsr hostname),
      .signLeaf (.hostCert hostname)])

/-- `getCACertPath()` of the certificate module. -/
def getCACertPath (home : String) : String := CertPath.caCert.toPathStr home

/-! ### Proxy server (source file `proxy/server.ts`)

Each connection handler is embedded as a pure function from its inputs and
an environment scenario (what the URL parser, the upstream host and the
client socket do) to the list of observable actions it performs, in program
order, together with the final `NetworkRequest` record of the exchange. -/

/-- Captured response data (`NetworkRequest.response` in the source). -/
structure RespInfo where
  status : Nat
  statusText : String
  headers : List (String × String)
  body : Option String
  duration : Int
deriving DecidableEq, Repr

/-- One captured exchange (`NetworkRequest` interface in the source). -/
structure NetworkRequest where
  id : String
  method : String
  url : String
  headers : List (String × String)
  body : Option String
  timestamp : Int
  response : Option RespInfo
deriving DecidableEq, Repr

/-- Observable actions of a connection handler, in program order:
emitted capture events plus writes on the client and upstream sockets. -/
inductive Ev where
  | reqEv (id : String) : Ev
  | respEv (id : String) : Ev
  | errEv (id : String) (msg : String) : Ev
  | clientHead (status : Nat) : Ev
  | clientEndB (body : String) : Ev
  | clientWrite (bytes : String) : Ev
  | clientSockEnd : Ev
  | upstreamConnect (host : String) (port : Int) : Ev
  | upstreamWrite (bytes : String) : Ev
  | pipeUpToClient : Ev
  | pipeClientToUp : Ev
  | tlsStart : Ev
deriving DecidableEq, Repr

/-- Fields of a successfully parsed `new URL(...)` value.  `URL.port` is the
empty string when the url has no explicit port; that case is modelled as
`none`. -/
structure URLParts where
  hostname : String
  port : Option Nat
  pathname : String
  search : String
deriving DecidableEq, Repr

/-- What the upstream request does: the `error` handler fires with a
message, or the response completes (`statusCode`/`statusMessage` may be
absent) with its headers, body and the `Date.now()` instant of the `end`
event. -/
inductive UpstreamOutcome where
  | failure (msg : String) : UpstreamOutcome
  | success (status : Option Nat) (statusText : Option String)
      (headers : List (String × String)) (body : String) (endTime : Int) :
      UpstreamOutcome
deriving DecidableEq, Repr

/-- Environment scenario of one plain-HTTP exchange: the result of
`new URL(url)` (`none` = the constructor threw) and the upstream outcome. -/
structure PlainScenario where
  parsedUrl : Option URLParts
  outcome : UpstreamOutcome
deriving DecidableEq, Repr

/-- `handleRequest`: one plain HTTP exchange, from the `end` event of the
client request (the accumulated body is `rawBody`). -/
def handleRequest (id : String) (startTime : Int) (method url : String)
    (headers : List (String × String)) (rawBody : String) (sc : PlainScenario) :
    List Ev × NetworkRequest :=
  let request : NetworkRequest :=
    { id := id, method := if method = "" then "GET" else method, url := url,
      headers := headers, body := if rawBody = "" then none else some rawBody,
      timestamp := startTime, response := none }
  match sc.parsedUrl with
  | none =>
      ([Ev.reqEv id, Ev.clientHead 400, Ev.clientEndB "Invalid URL"], request)
  | some u =>
      let dialPort : Int := (u.port.getD 80 : Nat)
      let sendEvs := if rawBody = "" then [] else [Ev.upstreamWrite rawBody]
      match sc.outcome with
      | .failure msg =>
          (Ev.reqEv id :: Ev.upstreamConnect u.hostname dialPort :: sendEvs ++
            [Ev.errEv id msg, Ev.clientHead 502, Ev.clientEndB "Proxy Error"],
           request)
      | .success status statusText rhdrs rbody endTime =>
          let resp : RespInfo :=
            { status := status.getD 0, statusText := statusText.getD "",
              headers := rhdrs, body := some rbody,
              duration := endTime - startTime }
          (Ev.reqEv id :: Ev.upstreamConnect u.hostname dialPort :: sendEvs ++
            [Ev.clientHead (status.getD 500), Ev.respEv id],
           { request with response := some resp })

/-- `String.prototype.split` with a one-character separator. -/
def splitChar (sep : Char) : List Char → List (List Char)
  | [] => [[]]
  | c :: cs =>
    if c = sep then [] :: splitChar sep cs
    else
      match splitChar sep cs with
      | [] => [[c]]
      | g :: gs => (c :: g) :: gs

/-- `String.prototype.split('\r\n')`. -/
def splitCRLF : List Char → List (List Char)
  | [] => [[]]
  | '\r' :: '\n' :: rest => [] :: splitCRLF rest
  | c :: rest =>
    match splitCRLF rest with
    | [] => [[c]]
    | g :: gs => (c :: g) :: gs

/-- Decimal value of a digit character. -/
def digitVal (c : Char) : Nat := c.toNat - 48

/-- Hexadecimal value of a hex digit character. -/
def hexVal (c : Char) : Nat :=
  if c.isDigit then c.toNat - 48
  else if 'a' ≤ c && c ≤ 'f' then c.toNat - 87
  else c.toNat - 55

/-- Hex digit test. -/
def isHexDigitCh (c : Char) : Bool :=
  c.isDigit || ( 'a' ≤ c && c ≤ 'f') || ( 'A' ≤ c && c ≤ 'F')

/-- JavaScript `parseInt(s)` with no radix argument: skip leading
whitespace, read an optional sign, detect a `0x`/`0X` hex marker, then take
the longest prefix of digits of the base.  `none` models `NaN`. -/
def jsParseInt (s : String) : Option Int :=
  let cs0 := s.data.dropWhile Char.isWhitespace
  let sign : Int :=
    match cs0 with
    | '-' :: _ => -1
    | _ => 1
  let cs1 : List Char :=
    match cs0 with
    | '-' :: r => r
    | '+' :: r => r
    | r => r
  let hex : Bool :=
    match cs1 with
    | '0' :: 'x' :: _ => true
    | '0' :: 'X' :: _ => true
    | _ => false
  let cs2 : List Char := if hex then cs1.drop 2 else cs1
  let ds := cs2.takeWhile (fun c => if hex then isHexDigitCh c else c.isDigit)
  if ds.isEmpty then none
  else
    some (sign * ((ds.foldl
      (fun a c => a * (if hex then 16 else 10) + (if hex then hexVal c else digitVal c))
      0 : Nat) : Int))

/-- Target extraction of `handleConnect`:
`const [hostname, port] = (req.url || '').split(':')` followed by
`const targetPort = parseInt(port) || 443`.  `parseInt` of an absent part
is `NaN`, and both `NaN` and `0` are falsy, so they fall back to `443`. -/
def connectTarget (url : String) : String × Int :=
  let parts := splitChar ':' url.data
  let hostname : String := ⟨parts.headD []⟩
  let targetPort : Int :=
    match parts.get? 1 with
    | none => 443
    | some p =>
      match jsParseInt ⟨p⟩ with
      | none => 443
      | some v => if v = 0 then 443 else v
  (hostname, targetPort)

/-- The tunnel-established reply written to the client socket. -/
def connEstablished : String :=
  "HTTP/1.1 200 Connection Established\r\nProxy-agent: DevLens\r\n\r\n"

/-- Number of `200 Connection Established` replies written to the client
socket in an event list. -/
def countEstablished (t : List Ev) : Nat :=
  (t.filter (fun e => e == Ev.clientWrite connEstablished)).length

/-- Environment scenario of `handleHttpsTunnel`: whether the plain TCP dial
to the target succeeds, the error message otherwise, and the `Date.now()`
instant of the connect callback. -/
structure TunnelScenario where
  dialOk : Bool
  dialErrMsg : String
  connectTime : Int
deriving DecidableEq, Repr

/-- Environment scenario of `handleHttpsWithMitm`: whether
`generateHostCert` succeeds (`certOk`), the `Date.now()` instant at which
the MITM response record is attached, and the tunnel scenario used on
fallback. -/
structure MitmScenario where
  certOk : Bool
  mitmTime : Int
  tunnel : TunnelScenario
deriving DecidableEq, Repr

/-- `handleHttpsTunnel`: plain byte tunnel.  The `200 Connection
Established` reply is written inside the `net.connect` callback, i.e. only
after the upstream dial succeeded; on a dial error the handler emits an
`error` event and ends the client socket without any reply. -/
def handleHttpsTunnel (request : NetworkRequest) (hostname : String)
    (targetPort : Int) (head : String) (sc : TunnelScenario) :
    List Ev × NetworkRequest :=
  if sc.dialOk then
    ([Ev.upstreamConnect hostname targetPort, Ev.clientWrite connEstablished,
      Ev.upstreamWrite head, Ev.pipeUpToClient, Ev.pipeClientToUp,
      Ev.respEv request.id],
     { request with
        response := some ({ status := 200,
                            statusText := "Connection Established (Tunnel)",
                            headers := [], body := none,
                            duration := sc.connectTime - request.timestamp } : RespInfo) })
  else
    ([Ev.upstreamConnect hostname targetPort,
      Ev.errEv request.id sc.dialErrMsg, Ev.clientSockEnd], request)

/-- `handleHttpsWithMitm`: on successful leaf issuance, reply
`200 Connection Established`, start a TLS server session on the client
socket and record the MITM response; if `generateHostCert` throws, fall
back to `handleHttpsTunnel` on the same connection. -/
def handleHttpsWithMitm (request : NetworkRequest) (hostname : String)
    (targetPort : Int) (head : String) (sc : MitmScenario) :
    List Ev × NetworkRequest :=
  if sc.certOk then
    ([Ev.clientWrite connEstablished, Ev.tlsStart, Ev.respEv request.id],
     { request with
        response := some ({ status := 200,
                            statusText := "Connection Established (MITM)",
                            headers := [], body := none,
                            duration := sc.mitmTime - request.timestamp } : RespInfo) })
  else
    handleHttpsTunnel request hostname targetPort head sc.tunnel

/-- `handleConnect`: allocate the exchange, emit its `request` event, then
dispatch on `this.caCert` to the MITM or the tunnel path. -/
def handleConnect (id : String) (url : String)
    (headers : List (String × String)) (now : Int) (caCertSet : Bool)
    (head : String) (tun : TunnelScenario) (mitm : MitmScenario) :
    List Ev × NetworkRequest :=
  let target := connectTarget url
  let request : NetworkRequest :=
    { id := id, method := "CONNECT", url := "https://" ++ url,
      headers := headers, body := none, timestamp := now, response := none }
  let rest :=
    if caCertSet then handleHttpsWithMitm request target.1 target.2 head mitm
    else handleHttpsTunnel request target.1 target.2 head tun
  (Ev.reqEv id :: rest.1, rest.2)

/-- One header line of the decrypted frame:
`const [key, ...valueParts] = lines[i].split(':')`, skipped when `key` is
falsy, stored as `headers[key.toLowerCase()] = valueParts.join(':').trim()`. -/
def headerEntry (line : String) : Option (String × String) :=
  match (splitChar ':' line.data).map (fun l => (⟨l⟩ : String)) with
  | [] => none
  | key :: valueParts =>
    if key = "" then none
    else some (key.toLower, (String.intercalate ":" valueParts).trim)

/-- Assignment into the headers object (later keys shadow earlier ones). -/
def setHeader (hs : List (String × String)) (k v : String) :
    List (String × String) :=
  (k, v) :: hs.filter (fun e => !(e.1 == k))

/-- The header-collection loop, over the lines after the request line,
stopping at the first blank line. -/
def collectHeaders : List String → List (String × String) → List (String × String)
  | [], acc => acc
  | l :: ls, acc =>
    if l = "" then acc
    else
      match headerEntry l with
      | none => collectHeaders ls acc
      | some kv => collectHeaders ls (setHeader acc kv.1 kv.2)

/-- `bodyStart`: index one past the first blank line (scanning from index
1), or its initial value `0` when no blank line occurs. -/
def bodyStartOf : List String → Nat → Nat
  | [], _ => 0
  | l :: ls, i => if l = "" then i + 1 else bodyStartOf ls (i + 1)

/-- `handleHttpsRequest`: one decrypted MITM child exchange.  The raw frame
`dataStr` is parsed (request line, headers up to the first blank line, rest
as body), a child exchange with its own id is captured, the request is
forwarded over TLS, and on completion the upstream response is
re-serialized back over the client-facing TLS session.  On upstream failure
only an `error` event is emitted. -/
def handleHttpsRequest (id : String) (startTime : Int) (hostname : String)
    (port : Int) (dataStr : String) (outcome : UpstreamOutcome) :
    List Ev × NetworkRequest :=
  let lines := (splitCRLF dataStr.data).map (fun l => (⟨l⟩ : String))
  let firstParts := splitChar ' ' (lines.headD "").data
  let method : String := ⟨firstParts.headD []⟩
  let pathStr : String :=
    match firstParts.get? 1 with
    | none => "undefined"
    | some p => ⟨p⟩
  let headers := collectHeaders (lines.drop 1) []
  let bodyStart := bodyStartOf (lines.drop 1) 1
  let body := String.intercalate "\r\n" (lines.drop bodyStart)
  let request : NetworkRequest :=
    { id := id, method := if method = "" then "GET" else method,
      url := "https://" ++ hostname ++ pathStr, headers := headers,
      body := if body = "" then none else some body,
      timestamp := startTime, response := none }
  let sendEvs := if body = "" then [] else [Ev.upstreamWrite body]
  match outcome with
  | .failure msg =>
      (Ev.reqEv id :: Ev.upstreamConnect hostname port :: sendEvs ++
        [Ev.errEv id msg], request)
  | .success status statusText rhdrs rbody endTime =>
      let resp : RespInfo :=
        { status := status.getD 0, statusText := statusText.getD "",
          headers := rhdrs, body := some rbody,
          duration := endTime - startTime }
      let statusStr := match status with
        | none => "undefined"
        | some n => natToString n
      let msgStr := match statusText with
        | none => "undefined"
        | some t => t
      let headerBlock := (rhdrs.filter (fun e => !(e.2 == ""))).foldl
        (fun acc e => acc ++ e.1 ++ ": " ++ e.2 ++ "\r\n") ""
      let rawResp := "HTTP/1.1 " ++ statusStr ++ " " ++ msgStr ++ "\r\n" ++
        headerBlock ++ "\r\n" ++ rbody
      (Ev.reqEv id :: Ev.upstreamConnect hostname port :: sendEvs ++
        [Ev.respEv id, Ev.clientWrite rawResp],
       { request with response := some resp })

/-! ### Event-ordering checker

`precedesChk seen t` walks the event list in order, recording the ids whose
`request` event has been seen, and checks that every `response`/`error`
event's id has a preceding `request` event. -/

def precedesChk : List String → List Ev → Bool
  | _, [] => true
  | seen, Ev.reqEv id :: rest => precedesChk (id :: seen) rest
  | seen, Ev.respEv id :: rest => seen.contains id && precedesChk seen rest
  | seen, Ev.errEv id _ :: rest => seen.contains id && precedesChk seen rest
  | seen, _ :: rest => precedesChk seen rest

/-! ### Process-level id assignment

`requestId` is a private field of `ProxyServer`, initialised to `0` by the
constructor; every exchange (plain HTTP, CONNECT, or MITM child) is given
`` `req_${++this.requestId}` ``.  `startProxy` constructs a **new**
`ProxyServer`, so its counter restarts at `0`. -/

/-- One id-relevant operation of a process: restarting the proxy
(`startProxy`, which replaces `proxyInstance` by a fresh server) or
creating an exchange of any of the three kinds. -/
inductive ProxyOp where
  | startProxy : ProxyOp
  | plainRequest : ProxyOp
  | connectReq : ProxyOp
  | mitmChild : ProxyOp
deriving DecidableEq, Repr

/-- Counter of the current `ProxyServer` instance plus all ids issued so
far during the process lifetime. -/
structure ProcState where
  counter : Nat
  issued : List String
deriving DecidableEq, Repr

/-- Effect of one operation on the id state. -/
def procStep (s : ProcState) : ProxyOp → ProcState
  | .startProxy => { counter := 0, issued := s.issued }
  | _ => { counter := s.counter + 1, issued := s.issued ++ [renderId (s.counter + 1)] }

/-- Ids issued by `k` consecutive exchanges of one instance whose counter
starts at `c`. -/
def instIds (c k : Nat) : List String :=
  (List.range k).map (fun i => renderId (c + i + 1))

/-! ### Server state (`caCert` field) and root-certificate export -/

/-- The mutable fields of a `ProxyServer` relevant to certificate export. -/
structure ProxyState where
  caCert : Option (String × String)
  requestId : Nat
deriving DecidableEq, Repr

namespace ProxyServer

/-- `new ProxyServer()`. -/
def mkNew : ProxyState := { caCert := none, requestId := 0 }

/-- `start(port)`: the source always sets `this.caCert = null`
("Skip CA certificate - we'll use tunnel mode for HTTPS"). -/
def start (s : ProxyState) : ProxyState := { s with caCert := none }

/-- `getCACertPath()` method:
`return this.caCert ? getCACertPath() : null`. -/
def getCACertPath (home : String) (s : ProxyState) : Option String :=
  if s.caCert.isSome then some (DevLens.getCACertPath home) else none

end ProxyServer

/-- Module-level `getProxyCACertPath()`:
`return proxyInstance?.getCACertPath() || null`. -/
def getProxyCACertPath (home : String) (inst : Option ProxyState) : Option String :=
  match inst with
  | none => none
  | some s => ProxyServer.getCACertPath home s

theorem ofDigits_toDigitsAux (fuel : Nat) :
    ∀ n : Nat, n ≤ fuel → ofDigits (toDigitsAux fuel n) = n := by
  induction fuel with
  | zero => intro n hn; interval_cases n; simp [toDigitsAux, ofDigits]
  | succ f ih =>
    intro n hn
    by_cases h0 : n = 0
    · simp [toDigitsAux, h0, ofDigits]
    · have hdiv : n / 10 ≤ f := by
        have : n / 10 < n := Nat.div_lt_self (Nat.pos_of_ne_zero h0) (by omega)
        omega
      simp only [toDigitsAux, h0, if_false, ofDigits, ih (n / 10) hdiv]
      omega

theorem toDigitsAux_lt_ten (fuel : Nat) :
    ∀ n d : Nat, d ∈ toDigitsAux fuel n → d < 10 := by
  induction fuel with
  | zero => intro n d hd; simp [toDigitsAux] at hd
  | succ f ih =>
    intro n d hd
    by_cases h0 : n = 0
    · simp [toDigitsAux, h0] at hd
    · simp only [toDigitsAux, h0, if_false, List.mem_cons] at hd
      rcases hd with h | h
      · subst h; exact Nat.mod_lt _ (by omega)
      · exact ih _ _ h

theorem digitVal_digitChar (d : Nat) (hd : d < 10) :
    (Nat.digitChar d).toNat - 48 = d := by
  interval_cases d <;> decide

theorem decDigitsVal_append (l : List Char) (c : Char) :
    decDigitsVal (l ++ [c]) = decDigitsVal l * 10 + (c.toNat - 48) := by
  simp [decDigitsVal, List.foldl_append]

theorem decDigitsVal_rev_map (ds : List Nat) (h : ∀ d ∈ ds, d < 10) :
    decDigitsVal (ds.reverse.map Nat.digitChar) = ofDigits ds := by
  induction ds with
  | nil => simp [decDigitsVal, ofDigits]
  | cons d ds ih =>
    have hd : d < 10 := h d (List.mem_cons_self _ _)
    have hds : ∀ x ∈ ds, x < 10 := fun x hx => h x (List.mem_cons_of_mem _ hx)
    simp only [List.reverse_cons, List.map_append, List.map_cons, List.map_nil,
      decDigitsVal_append, ih hds, ofDigits, digitVal_digitChar d hd]
    omega

/-- Left inverse of `natToString`: decoding the decimal characters recovers
the number, hence the rendering is injective. -/
theorem decDigitsVal_natToString (n : Nat) :
    decDigitsVal (natToString n).data = n := by
  by_cases h0 : n = 0
  · subst h0; decide
  · have hv : decDigitsVal ((toDecimalDigits n).reverse.map Nat.digitChar)
        = ofDigits (toDecimalDigits n) :=
      decDigitsVal_rev_map _ (toDigitsAux_lt_ten n n)
    have hstr : natToString n = ⟨(toDecimalDigits n).reverse.map Nat.digitChar⟩ := by
      unfold natToString; rw [if_neg h0]
    rw [hstr]
    exact hv.trans (ofDigits_toDigitsAux n n le_rfl)

theorem idNum_renderId (n : Nat) : idNum (renderId n) = n := by
  have hdata : (renderId n).data = 'r' :: 'e' :: 'q' :: '_' :: (natToString n).data := by
    show ("req_" ++ natToString n).data = _
    rw [String.data_append]
    rfl
  rw [idNum, hdata]
  simpa [List.drop] using decDigitsVal_natToString n

theorem existsFile_writeFile (fs : CertFS) (p q : CertPath) (c : String) :
    (fs.writeFile p c).existsFile q = ((p == q) || fs.existsFile q) := by
  simp [CertFS.writeFile, CertFS.existsFile, List.any_cons, BEq.comm]

theorem any_key_filter (p q : CertPath) (l : List (CertPath × String)) :
    ((l.filter (fun e => !(e.1 == p))).any (fun e => e.1 == q))
      = (!(q == p) && l.any (fun e => e.1 == q)) := by
  induction l with
  | nil => simp
  | cons e l ih =>
    simp only [List.filter_cons]
    by_cases hep : e.1 = p
    · rw [if_neg (by simp [hep]), ih]
      by_cases hq : q = p
      · simp [hq]
      · have h1 : (e.1 == q) = false := by
          rw [beq_eq_false_iff_ne, hep]; exact fun h => hq h.symm
        simp [List.any_cons, h1]
    · rw [if_pos (by simp [hep])]
      simp only [List.any_cons, ih]
      by_cases hq : q = p
      · have h1 : (e.1 == q) = false := by
          rw [beq_eq_false_iff_ne, hq]; exact hep
        simp [h1, hq, hep]
      · have h2 : (!(q == p)) = true := by
          simp [Bool.not_eq_true', beq_eq_false_iff_ne, hq]
        rw [h2]
        simp

theorem existsFile_unlink (fs : CertFS) (p q : CertPath) :
    (fs.unlink p).existsFile q = (!(q == p) && fs.existsFile q) :=
  any_key_filter p q fs.files

@[simp] theorem dirCreated_writeFile (fs : CertFS) (p : CertPath) (c : String) :
    (fs.writeFile p c).dirCreated = fs.dirCreated := rfl

@[simp] theorem dirCreated_unlink (fs : CertFS) (p : CertPath) :
    (fs.unlink p).dirCreated = fs.dirCreated := rfl

theorem dirCreated_ensureCertDir (st : CertState) :
    (ensureCertDir st).fs.dirCreated = true := by
  unfold ensureCertDir
  by_cases h : st.fs.dirCreated <;> simp [h]

theorem ensureCertDir_of_dirCreated (st : CertState) (h : st.fs.dirCreated = true) :
    ensureCertDir st = st := by
  simp [ensureCertDir, h]

theorem generateCACert_cached (home : String) (st : CertState)
    (h1 : st.fs.dirCreated = true) (h2 : st.fs.existsFile .caKey = true)
    (h3 : st.fs.existsFile .caCert = true) :
    generateCACert home st =
      ({ key := CertPath.caKey.toPathStr home, cert := CertPath.caCert.toPathStr home,
         dir := certDirStr home }, st, []) := by
  unfold generateCACert
  rw [ensureCertDir_of_dirCreated st h1]
  simp [h2, h3]

theorem generateCACert_establishes (home : String) (st0 : CertState) :
    ((generateCACert home st0).2.1.fs.dirCreated = true)
    ∧ ((generateCACert home st0).2.1.fs.existsFile .caKey = true)
    ∧ ((generateCACert home st0).2.1.fs.existsFile .caCert = true) := by
  unfold generateCACert
  by_cases hc : ((ensureCertDir st0).fs.existsFile .caKey
      && (ensureCertDir st0).fs.existsFile .caCert) = true
  · rcases Bool.and_eq_true_iff.mp hc with ⟨hk, hcert⟩
    simp [hc, dirCreated_ensureCertDir, hk, hcert]
  · simp only [hc, if_false, Bool.false_eq_true]
    refine ⟨?_, ?_, ?_⟩ <;>
      simp [existsFile_writeFile, freshPem, dirCreated_ensureCertDir, beq_iff_eq]

theorem generateHostCert_cached (home hostname : String) (st : CertState)
    (h1 : st.fs.dirCreated = true)
    (h2 : st.fs.existsFile (.hostKey hostname) = true)
    (h3 : st.fs.existsFile (.hostCert hostname) = true) :
    generateHostCert home hostname st =
      (((CertPath.hostKey hostname).toPathStr home,
        (CertPath.hostCert hostname).toPathStr home), st, []) := by
  unfold generateHostCert
  rw [ensureCertDir_of_dirCreated st h1]
  simp [h2, h3]

theorem generateHostCert_establishes (home hostname : String) (st0 : CertState) :
    ((generateHostCert home hostname st0).2.1.fs.dirCreated = true)
    ∧ ((generateHostCert home hostname st0).2.1.fs.existsFile (.hostKey hostname) = true)
    ∧ ((generateHostCert home hostname st0).2.1.fs.existsFile (.hostCert hostname) = true) := by
  unfold generateHostCert
  by_cases hc : ((ensureCertDir st0).fs.existsFile (.hostKey hostname)
      && (ensureCertDir st0).fs.existsFile (.hostCert hostname)) = true
  · rcases Bool.and_eq_true_iff.mp hc with ⟨hk, hcert⟩
    simp [hc, dirCreated_ensureCertDir, hk, hcert]
  · simp only [hc, if_false, Bool.false_eq_true]
    refine ⟨?_, ?_, ?_⟩ <;>
      simp [existsFile_writeFile, existsFile_unlink, freshPem,
        dirCreated_ensureCertDir, beq_iff_eq]

theorem precedesChk_mono (t : List Ev) :
    ∀ s s' : List String,
      (∀ x : String, s.contains x = true → s'.contains x = true) →
      precedesChk s t = true → precedesChk s' t = true := by
  induction t with
  | nil => intro s s' _ _; rfl
  | cons e rest ih =>
    intro s s' hsub h
    cases e with
    | reqEv id =>
      simp only [precedesChk] at h ⊢
      refine ih (id :: s) (id :: s') ?_ h
      intro x hx
      simp only [List.contains_cons, Bool.or_eq_true] at hx ⊢
      rcases hx with hx | hx
      · exact Or.inl hx
      · exact Or.inr (hsub x hx)
    | respEv id =>
      simp only [precedesChk, Bool.and_eq_true] at h ⊢
      exact ⟨hsub id h.1, ih s s' hsub h.2⟩
    | errEv id msg =>
      simp only [precedesChk, Bool.and_eq_true] at h ⊢
      exact ⟨hsub id h.1, ih s s' hsub h.2⟩
    | clientHead st =>
      simp only [precedesChk] at h ⊢; exact ih s s' hsub h
    | clientEndB b =>
      simp only [precedesChk] at h ⊢; exact ih s s' hsub h
    | clientWrite b =>
      simp only [precedesChk] at h ⊢; exact ih s s' hsub h
    | clientSockEnd =>
      simp only [precedesChk] at h ⊢; exact ih s s' hsub h
    | upstreamConnect hst p =>
      simp only [precedesChk] at h ⊢; exact ih s s' hsub h
    | upstreamWrite b =>
      simp only [precedesChk] at h ⊢; exact ih s s' hsub h
    | pipeUpToClient =>
      simp only [precedesChk] at h ⊢; exact ih s s' hsub h
    | pipeClientToUp =>
      simp only [precedesChk] at h ⊢; exact ih s s' hsub h
    | tlsStart =>
      simp only [precedesChk] at h ⊢; exact ih s s' hsub h

theorem precedesChk_append (t1 t2 : List Ev) :
    ∀ s : List String, precedesChk s t1 = true → precedesChk s t2 = true →
      precedesChk s (t1 ++ t2) = true := by
  induction t1 with
  | nil => intro s _ h2; simpa using h2
  | cons e rest ih =>
    intro s h1 h2
    cases e with
    | reqEv id =>
      simp only [List.cons_append, precedesChk] at h1 ⊢
      refine ih (id :: s) h1 ?_
      refine precedesChk_mono t2 s (id :: s) ?_ h2
      intro x hx
      simp only [List.contains_cons, Bool.or_eq_true]
      exact Or.inr hx
    | respEv id =>
      simp only [List.cons_append, precedesChk, Bool.and_eq_true] at h1 ⊢
      exact ⟨h1.1, ih s h1.2 h2⟩
    | errEv id msg =>
      simp only [List.cons_append, precedesChk, Bool.and_eq_true] at h1 ⊢
      exact ⟨h1.1, ih s h1.2 h2⟩
    | clientHead st =>
      simp only [List.cons_append, precedesChk] at h1 ⊢; exact ih s h1 h2
    | clientEndB b =>
      simp only [List.cons_append, precedesChk] at h1 ⊢; exact ih s h1 h2
    | clientWrite b =>
      simp only [List.cons_append, precedesChk] at h1 ⊢; exact ih s h1 h2
    | clientSockEnd =>
      simp only [List.cons_append, precedesChk] at h1 ⊢; exact ih s h1 h2
    | upstreamConnect hst p =>
      simp only [List.cons_append, precedesChk] at h1 ⊢; exact ih s h1 h2
    | upstreamWrite b =>
      simp only [List.cons_append, precedesChk] at h1 ⊢; exact ih s h1 h2
    | pipeUpToClient =>
      simp only [List.cons_append, precedesChk] at h1 ⊢; exact ih s h1 h2
    | pipeClientToUp =>
      simp only [List.cons_append, precedesChk] at h1 ⊢; exact ih s h1 h2
    | tlsStart =>
      simp only [List.cons_append, precedesChk] at h1 ⊢; exact ih s h1 h2

/-! ### Helper lemmas about the id model -/

theorem instIds_succ (c k : Nat) :
    instIds c (k + 1) = renderId (c + 1) :: instIds (c + 1) k := by
  unfold instIds
  rw [List.range_succ_eq_map]
  simp only [List.map_cons, List.map_map]
  refine congrArg₂ List.cons rfl ?_
  refine List.map_congr_left ?_
  intro i _
  simp only [Function.comp_apply]
  refine congrArg renderId ?_
  omega

theorem foldl_procStep_no_start (ops : List ProxyOp)
    (h : ∀ op ∈ ops, op ≠ ProxyOp.startProxy) :
    ∀ s : ProcState,
      ops.foldl procStep s =
        { counter := s.counter + ops.length,
          issued := s.issued ++ instIds s.counter ops.length } := by
  induction ops with
  | nil =>
    intro s
    simp [instIds]
  | cons op ops ih =>
    intro s
    have hop : op ≠ ProxyOp.startProxy := h op (List.mem_cons_self _ _)
    have hops : ∀ o ∈ ops, o ≠ ProxyOp.startProxy :=
      fun o ho => h o (List.mem_cons_of_mem _ ho)
    have hstep : procStep s op =
        { counter := s.counter + 1, issued := s.issued ++ [renderId (s.counter + 1)] } := by
      cases op with
      | startProxy => exact absurd rfl hop
      | plainRequest => rfl
      | connectReq => rfl
      | mitmChild => rfl
    rw [List.foldl_cons, hstep, ih hops]
    refine congrArg₂ ProcState.mk ?_ ?_
    · simp [List.length_cons]; omega
    · rw [List.length_cons, instIds_succ, List.append_assoc]
      rfl

theorem pairwise_idNum_instIds (c k : Nat) :
    List.Pairwise (fun a b => idNum a < idNum b) (instIds c k) := by
  unfold instIds
  refine List.Pairwise.map _ ?_ (List.pairwise_lt_range k)
  intro a b hab
  rw [idNum_renderId, idNum_renderId]
  omega

/-! ### Event-ordering of every handler -/

theorem precedesChk_handleRequest (id : String) (st : Int) (m url : String)
    (hdrs : List (String × String)) (rb : String) (sc : PlainScenario) :
    precedesChk [] (handleRequest id st m url hdrs rb sc).1 = true := by
  unfold handleRequest
  cases sc.parsedUrl with
  | none => simp [precedesChk]
  | some u =>
    cases sc.outcome with
    | failure msg =>
      by_cases hb : rb = "" <;>
        simp [hb, precedesChk, List.contains_cons]
    | success status stTxt rh rbody endT =>
      by_cases hb : rb = "" <;>
        simp [hb, precedesChk, List.contains_cons]

theorem precedesChk_handleHttpsTunnel (req : NetworkRequest) (hostname : String)
    (targetPort : Int) (head : String) (sc : TunnelScenario) :
    precedesChk [req.id] (handleHttpsTunnel req hostname targetPort head sc).1 = true := by
  unfold handleHttpsTunnel
  by_cases hd : sc.dialOk <;> simp [hd, precedesChk, List.contains_cons]

theorem precedesChk_handleConnect (id url : String)
    (hdrs : List (String × String)) (now : Int) (ca : Bool) (head : String)
    (tun : TunnelScenario) (mitm : MitmScenario) :
    precedesChk [] (handleConnect id url hdrs now ca head tun mitm).1 = true := by
  unfold handleConnect handleHttpsWithMitm
  cases ca with
  | false =>
    simpa [precedesChk] using
      precedesChk_handleHttpsTunnel
        { id := id, method := "CONNECT", url := "https://" ++ url, headers := hdrs,
          body := none, timestamp := now, response := none }
        (connectTarget url).1 (connectTarget url).2 head tun
  | true =>
    by_cases hc : mitm.certOk
    · simp [hc, precedesChk, List.contains_cons]
    · simpa [hc, precedesChk] using
        precedesChk_handleHttpsTunnel
          { id := id, method := "CONNECT", url := "https://" ++ url, headers := hdrs,
            body := none, timestamp := now, response := none }
          (connectTarget url).1 (connectTarget url).2 head mitm.tunnel

theorem precedesChk_handleHttpsRequest (id : String) (st : Int)
    (hostname : String) (port : Int) (dataStr : String) (oc : UpstreamOutcome) :
    precedesChk [] (handleHttpsRequest id st hostname port dataStr oc).1 = true := by
  unfold handleHttpsRequest
  cases oc with
  | failure msg =>
    simp only [precedesChk]
    split <;> simp [precedesChk, List.contains_cons]
  | success status stTxt rh rbody endT =>
    simp only [precedesChk]
    split <;> simp [precedesChk, List.contains_cons]

theorem precedesChk_flatten (ts : List (List Ev))
    (h : ∀ t ∈ ts, precedesChk [] t = true) :
    precedesChk [] ts.flatten = true := by
  induction ts with
  | nil => rfl
  | cons t ts ih =>
    rw [List.flatten_cons]
    exact precedesChk_append t ts.flatten []
      (h t (List.mem_cons_self _ _))
      (ih fun u hu => h u (List.mem_cons_of_mem _ hu))

/-! ### Split and target-extraction lemmas -/

theorem splitChar_ne_nil (sep : Char) (l : List Char) : splitChar sep l ≠ [] := by
  cases l with
  | nil => simp [splitChar]
  | cons c cs =>
    unfold splitChar
    by_cases h : c = sep
    · simp [h]
    · simp only [h, if_false]
      cases splitChar sep cs <;> simp

theorem splitChar_headD (sep : Char) (l : List Char) :
    (splitChar sep l).headD [] = l.takeWhile (fun c => !(c == sep)) := by
  induction l with
  | nil => rfl
  | cons c cs ih =>
    unfold splitChar
    by_cases h : c = sep
    · simp [h, List.takeWhile_cons]
    · have hb : (c == sep) = false := beq_eq_false_iff_ne.mpr h
      simp only [h, if_false]
      rcases hcs : splitChar sep cs with _ | ⟨g, gs⟩
      · exact absurd hcs (splitChar_ne_nil sep cs)
      · rw [hcs] at ih
        simp only [List.headD_cons] at ih
        simp [List.takeWhile_cons, hb, ← ih]

theorem splitChar_no_sep (sep : Char) (l : List Char) (h : sep ∉ l) :
    splitChar sep l = [l] := by
  induction l with
  | nil => rfl
  | cons c cs ih =>
    have hc : ¬ c = sep := fun he => h (List.mem_cons.mpr (Or.inl he.symm))
    have hcs : sep ∉ cs := fun hm => h (List.mem_cons_of_mem _ hm)
    unfold splitChar
    simp only [hc, if_false, ih hcs]

theorem splitChar_cons_ne (sep c : Char) (l : List Char) (hc : ¬ c = sep) :
    splitChar sep (c :: l) =
      match splitChar sep l with
      | [] => [[c]]
      | g :: gs => (c :: g) :: gs := by
  simp only [splitChar, hc, if_false]

theorem splitChar_append (sep : Char) (h1 rest : List Char) (hh : sep ∉ h1) :
    splitChar sep (h1 ++ sep :: rest) = h1 :: splitChar sep rest := by
  induction h1 with
  | nil => simp [splitChar]
  | cons c cs ih =>
    have hc : ¬ c = sep := fun he => hh (List.mem_cons.mpr (Or.inl he.symm))
    have hcs : sep ∉ cs := fun hm => hh (List.mem_cons_of_mem _ hm)
    rw [List.cons_append, splitChar_cons_ne sep c (cs ++ sep :: rest) hc, ih hcs]

theorem connectTarget_eq_of_parts (url : String) (a b : List Char)
    (h : splitChar ':' url.data = [a, b]) :
    connectTarget url =
      (⟨a⟩, match jsParseInt ⟨b⟩ with
            | none => (443 : Int)
            | some v => if v = 0 then 443 else v) := by
  unfold connectTarget
  rw [h]
  rfl

theorem generateCACert_fst (home : String) (st0 : CertState) :
    (generateCACert home st0).1 =
      { key := CertPath.caKey.toPathStr home, cert := CertPath.caCert.toPathStr home,
        dir := certDirStr home } := by
  unfold generateCACert
  by_cases hc : ((ensureCertDir st0).fs.existsFile .caKey
      && (ensureCertDir st0).fs.existsFile .caCert) = true
  · simp [hc]
  · simp [hc]

theorem generateHostCert_fst (home hostname : String) (st0 : CertState) :
    (generateHostCert home hostname st0).1 =
      ((CertPath.hostKey hostname).toPathStr home,
       (CertPath.hostCert hostname).toPathStr home) := by
  unfold generateHostCert
  by_cases hc : ((ensureCertDir st0).fs.existsFile (.hostKey hostname)
      && (ensureCertDir st0).fs.existsFile (.hostCert hostname)) = true
  · simp [hc]
  · simp [hc]

/-! ### Claim theorems -/

/-- **C1** (counterexample): ids are *not* unique across a whole process
lifetime.  `startProxy` constructs a fresh `ProxyServer` whose private
`requestId` counter restarts at `0`, so the operation sequence
`startProxy; exchange; startProxy; exchange` issues `req_1` twice. -/
theorem requestIds_counterexample :
    (([ProxyOp.startProxy, ProxyOp.plainRequest, ProxyOp.startProxy,
       ProxyOp.plainRequest]).foldl procStep { counter := 0, issued := [] }).issued
      = ["req_1", "req_1"]
    ∧ ¬ ((([ProxyOp.startProxy, ProxyOp.plainRequest, ProxyOp.startProxy,
       ProxyOp.plainRequest]).foldl procStep { counter := 0, issued := [] }).issued).Nodup := by
  exact ⟨by decide, by decide⟩

/-- **C1** (amended): within the lifetime of a single `ProxyServer`
instance (i.e. between two `startProxy` calls) all exchange ids — plain
HTTP, CONNECT and MITM child alike — are distinct, and the numeric part of
an earlier id is strictly below that of a later one. -/
theorem requestIds_per_instance (s : ProcState) (ops : List ProxyOp)
    (h : ∀ op ∈ ops, op ≠ ProxyOp.startProxy) :
    (ops.foldl procStep (procStep s ProxyOp.startProxy)).issued
        = s.issued ++ instIds 0 ops.length
    ∧ List.Pairwise (fun a b => idNum a < idNum b) (instIds 0 ops.length)
    ∧ (instIds 0 ops.length).Nodup := by
  refine ⟨?_, pairwise_idNum_instIds 0 ops.length, ?_⟩
  · rw [foldl_procStep_no_start ops h]
    rfl
  · refine List.Pairwise.imp ?_ (pairwise_idNum_instIds 0 ops.length)
    intro a b hab heq
    rw [heq] at hab
    exact lt_irrefl _ hab

/-- Witness for C1 (amended) at a concrete state and operation list. -/
theorem requestIds_per_instance_witness :
    (∀ op ∈ [ProxyOp.plainRequest, ProxyOp.connectReq, ProxyOp.mitmChild],
        op ≠ ProxyOp.startProxy)
    ∧ (([ProxyOp.plainRequest, ProxyOp.connectReq, ProxyOp.mitmChild].foldl procStep
          (procStep { counter := 5, issued := ["req_9"] } ProxyOp.startProxy)).issued
        = ["req_9"] ++ instIds 0 3
      ∧ List.Pairwise (fun a b => idNum a < idNum b) (instIds 0 3)
      ∧ (instIds 0 3).Nodup) :=
  ⟨by decide,
   requestIds_per_instance { counter := 5, issued := ["req_9"] }
     [ProxyOp.plainRequest, ProxyOp.connectReq, ProxyOp.mitmChild] (by decide)⟩

/-- **C2**: on every code path — plain HTTP handling, the CONNECT
tunnel/MITM dispatch, a MITM child exchange, and a whole MITM session
(CONNECT events followed by any number of child exchanges) — every
`response`/`error` event for an id is preceded by the `request` event for
that same id. -/
theorem request_before_completion :
    (∀ (id : String) (st : Int) (m url : String) (hdrs : List (String × String))
        (rb : String) (sc : PlainScenario),
        precedesChk [] (handleRequest id st m url hdrs rb sc).1 = true)
    ∧ (∀ (id url : String) (hdrs : List (String × String)) (now : Int) (ca : Bool)
        (head : String) (tun : TunnelScenario) (mitm : MitmScenario),
        precedesChk [] (handleConnect id url hdrs now ca head tun mitm).1 = true)
    ∧ (∀ (id : String) (st : Int) (hostname : String) (port : Int)
        (dataStr : String) (oc : UpstreamOutcome),
        precedesChk [] (handleHttpsRequest id st hostname port dataStr oc).1 = true)
    ∧ (∀ (id url : String) (hdrs : List (String × String)) (now : Int)
        (head : String) (tun : TunnelScenario) (mitm : MitmScenario)
        (children : List (String × Int × String × UpstreamOutcome)),
        precedesChk []
          ((handleConnect id url hdrs now true head tun mitm).1 ++
            (children.map (fun c =>
              (handleHttpsRequest c.1 c.2.1 (connectTarget url).1
                (connectTarget url).2 c.2.2.1 c.2.2.2).1)).flatten) = true) := by
  refine ⟨precedesChk_handleRequest, precedesChk_handleConnect,
    precedesChk_handleHttpsRequest, ?_⟩
  intro id url hdrs now head tun mitm children
  refine precedesChk_append _ _ []
    (precedesChk_handleConnect id url hdrs now true head tun mitm) ?_
  refine precedesChk_flatten _ ?_
  intro t ht
  rcases List.mem_map.mp ht with ⟨c, _, rfl⟩
  exact precedesChk_handleHttpsRequest c.1 c.2.1 _ _ c.2.2.1 c.2.2.2

/-- **C3** (counterexample): it is *not* the case that every CONNECT
request gets exactly one `200 Connection Established` reply.  The reply is
written inside the `net.connect` callback, so when the upstream dial fails
the client receives no reply at all (the socket is just ended). -/
theorem connect_reply_counterexample :
    ¬ countEstablished
        (handleConnect "req_1" "example.com:443" [] 0 false ""
          { dialOk := false, dialErrMsg := "connect ECONNREFUSED", connectTime := 0 }
          { certOk := false, mitmTime := 0,
            tunnel := { dialOk := false, dialErrMsg := "", connectTime := 0 } }).1 = 1 := by
  decide

/-- **C3** (amended): the `200 Connection Established` reply is written
only after the handling strategy succeeds, not on CONNECT receipt.  In
tunnel mode with a successful upstream dial the handler writes exactly one
reply, and it precedes the buffered head bytes and both relay pipes; on a
failed dial it writes no reply and ends the client socket; in MITM mode
with successful issuance it writes exactly one reply (before the TLS
session starts, with no head-byte relay at all). -/
theorem connect_established_reply (id url : String)
    (hdrs : List (String × String)) (now : Int) (head : String)
    (tun : TunnelScenario) (mitm : MitmScenario) :
    (tun.dialOk = true →
      (handleConnect id url hdrs now false head tun mitm).1 =
        [Ev.reqEv id, Ev.upstreamConnect (connectTarget url).1 (connectTarget url).2,
         Ev.clientWrite connEstablished, Ev.upstreamWrite head,
         Ev.pipeUpToClient, Ev.pipeClientToUp, Ev.respEv id]
      ∧ countEstablished (handleConnect id url hdrs now false head tun mitm).1 = 1)
    ∧ (tun.dialOk = false →
      (handleConnect id url hdrs now false head tun mitm).1 =
        [Ev.reqEv id, Ev.upstreamConnect (connectTarget url).1 (connectTarget url).2,
         Ev.errEv id tun.dialErrMsg, Ev.clientSockEnd]
      ∧ countEstablished (handleConnect id url hdrs now false head tun mitm).1 = 0)
    ∧ (mitm.certOk = true →
      (handleConnect id url hdrs now true head tun mitm).1 =
        [Ev.reqEv id, Ev.clientWrite connEstablished, Ev.tlsStart, Ev.respEv id]
      ∧ countEstablished (handleConnect id url hdrs now true head tun mitm).1 = 1) := by
  refine ⟨fun hd => ?_, fun hd => ?_, fun hc => ?_⟩
  · constructor <;>
      simp [handleConnect, handleHttpsTunnel, hd, countEstablished, connEstablished]
  · constructor <;>
      simp [handleConnect, handleHttpsTunnel, hd, countEstablished, connEstablished]
  · constructor <;>
      simp [handleConnect, handleHttpsWithMitm, hc, countEstablished, connEstablished]

/-- Witness for C3 (amended) at concrete inputs (a succeeding dial, a
failing dial, and a succeeding MITM issuance). -/
theorem connect_established_reply_witness :
    (({ dialOk := true, dialErrMsg := "", connectTime := 7 } : TunnelScenario).dialOk = true
      ∧ (handleConnect "req_2" "example.com:443" [] 3 false "HEAD"
            { dialOk := true, dialErrMsg := "", connectTime := 7 }
            { certOk := true, mitmTime := 7,
              tunnel := { dialOk := true, dialErrMsg := "", connectTime := 7 } }).1 =
          [Ev.reqEv "req_2",
           Ev.upstreamConnect (connectTarget "example.com:443").1 (connectTarget "example.com:443").2,
           Ev.clientWrite connEstablished, Ev.upstreamWrite "HEAD",
           Ev.pipeUpToClient, Ev.pipeClientToUp, Ev.respEv "req_2"]
      ∧ countEstablished (handleConnect "req_2" "example.com:443" [] 3 false "HEAD"
            { dialOk := true, dialErrMsg := "", connectTime := 7 }
            { certOk := true, mitmTime := 7,
              tunnel := { dialOk := true, dialErrMsg := "", connectTime := 7 } }).1 = 1) :=
  ⟨rfl,
   (connect_established_reply "req_2" "example.com:443" [] 3 "HEAD"
      { dialOk := true, dialErrMsg := "", connectTime := 7 }
      { certOk := true, mitmTime := 7,
        tunnel := { dialOk := true, dialErrMsg := "", connectTime := 7 } }).1 rfl⟩

/-- **C4**: when the upstream of a plain HTTP exchange fails, the handler
emits exactly one `error` event carrying the exchange id and the failure
message, replies `502` and `Proxy Error` to the client, and leaves the
exchange's `response` field unset.  (The `ProxyServer` constructor installs
an `error` listener precisely so that these events never become unhandled
`EventEmitter` exceptions.) -/
theorem plain_upstream_failure (id : String) (st : Int) (m url : String)
    (hdrs : List (String × String)) (rb : String) (u : URLParts) (msg : String) :
    (handleRequest id st m url hdrs rb
        { parsedUrl := some u, outcome := .failure msg }).1
      = Ev.reqEv id :: Ev.upstreamConnect u.hostname ((u.port.getD 80 : Nat) : Int) ::
        (if rb = "" then [] else [Ev.upstreamWrite rb]) ++
        [Ev.errEv id msg, Ev.clientHead 502, Ev.clientEndB "Proxy Error"]
    ∧ ((handleRequest id st m url hdrs rb
          { parsedUrl := some u, outcome := .failure msg }).1.filter
        (fun e => match e with | Ev.errEv _ _ => true | _ => false))
      = [Ev.errEv id msg]
    ∧ (handleRequest id st m url hdrs rb
        { parsedUrl := some u, outcome := .failure msg }).2.response = none := by
  refine ⟨rfl, ?_, rfl⟩
  by_cases hb : rb = "" <;> simp [handleRequest, hb]

/-- **C5**: when leaf-certificate issuance fails (`generateHostCert`
throws), the MITM handler behaves exactly like the tunnel handler on the
same connection; in particular, when the upstream dial succeeds the client
still gets the established reply, the buffered head bytes are forwarded and
both relay pipes are set up — the client socket is never ended because
issuance failed. -/
theorem mitm_fallback_tunnel (req : NetworkRequest) (hostname : String)
    (targetPort : Int) (head : String) (mt : Int) (tun : TunnelScenario) :
    handleHttpsWithMitm req hostname targetPort head
        { certOk := false, mitmTime := mt, tunnel := tun }
      = handleHttpsTunnel req hostname targetPort head tun
    ∧ (tun.dialOk = true →
        (handleHttpsWithMitm req hostname targetPort head
            { certOk := false, mitmTime := mt, tunnel := tun }).1
          = [Ev.upstreamConnect hostname targetPort, Ev.clientWrite connEstablished,
             Ev.upstreamWrite head, Ev.pipeUpToClient, Ev.pipeClientToUp,
             Ev.respEv req.id]
        ∧ Ev.clientSockEnd ∉ (handleHttpsWithMitm req hostname targetPort head
            { certOk := false, mitmTime := mt, tunnel := tun }).1) := by
  refine ⟨rfl, fun hd => ⟨?_, ?_⟩⟩
  · simp [handleHttpsWithMitm, handleHttpsTunnel, hd]
  · simp [handleHttpsWithMitm, handleHttpsTunnel, hd]

/-- Witness for C5 at concrete inputs with a succeeding dial. -/
theorem mitm_fallback_tunnel_witness :
    (({ dialOk := true, dialErrMsg := "", connectTime := 9 } : TunnelScenario).dialOk = true)
    ∧ (handleHttpsWithMitm
          { id := "req_3", method := "CONNECT", url := "https://example.com:443",
            headers := [], body := none, timestamp := 4, response := none }
          "example.com" 443 "HEAD"
          { certOk := false, mitmTime := 9,
            tunnel := { dialOk := true, dialErrMsg := "", connectTime := 9 } }).1
        = [Ev.upstreamConnect "example.com" 443, Ev.clientWrite connEstablished,
           Ev.upstreamWrite "HEAD", Ev.pipeUpToClient, Ev.pipeClientToUp,
           Ev.respEv ({ id := "req_3", method := "CONNECT",
                        url := "https://example.com:443", headers := [],
                        body := none, timestamp := 4,
                        response := none } : NetworkRequest).id] :=
  ⟨rfl,
   ((mitm_fallback_tunnel
      { id := "req_3", method := "CONNECT", url := "https://example.com:443",
        headers := [], body := none, timestamp := 4, response := none }
      "example.com" 443 "HEAD" 9
      { dialOk := true, dialErrMsg := "", connectTime := 9 }).2 rfl).1⟩

/-- **C6**: certificate issuance is idempotent.  A second call to
`generateCACert` (resp. `generateHostCert hostname`) returns the same file
paths, performs no key-generation or signing subprocess invocation, and
leaves the file system unchanged; and whenever the root (resp. leaf) key
and certificate files already exist, a call returns immediately with the
cached paths, an unchanged state, and no subprocess invocation. -/
theorem cert_issuance_idempotent :
    (∀ (home : String) (st0 : CertState),
      generateCACert home (generateCACert home st0).2.1
        = ((generateCACert home st0).1, (generateCACert home st0).2.1, []))
    ∧ (∀ (home hostname : String) (st0 : CertState),
      generateHostCert home hostname (generateHostCert home hostname st0).2.1
        = ((generateHostCert home hostname st0).1,
           (generateHostCert home hostname st0).2.1, []))
    ∧ (∀ (home : String) (st : CertState), st.fs.dirCreated = true →
        st.fs.existsFile .caKey = true → st.fs.existsFile .caCert = true →
        generateCACert home st =
          ({ key := CertPath.caKey.toPathStr home,
             cert := CertPath.caCert.toPathStr home,
             dir := certDirStr home }, st, []))
    ∧ (∀ (home hostname : String) (st : CertState), st.fs.dirCreated = true →
        st.fs.existsFile (.hostKey hostname) = true →
        st.fs.existsFile (.hostCert hostname) = true →
        generateHostCert home hostname st =
          (((CertPath.hostKey hostname).toPathStr home,
            (CertPath.hostCert hostname).toPathStr home), st, [])) := by
  refine ⟨?_, ?_, ?_, ?_⟩
  · intro home st0
    obtain ⟨h1, h2, h3⟩ := generateCACert_establishes home st0
    rw [generateCACert_cached home _ h1 h2 h3, generateCACert_fst home st0]
  · intro home hostname st0
    obtain ⟨h1, h2, h3⟩ := generateHostCert_establishes home hostname st0
    rw [generateHostCert_cached home hostname _ h1 h2 h3,
      generateHostCert_fst home hostname st0]
  · intro home st h1 h2 h3
    exact generateCACert_cached home st h1 h2 h3
  · intro home hostname st h1 h2 h3
    exact generateHostCert_cached home hostname st h1 h2 h3

/-- Witness for C6 at a concrete state whose cache already holds the root
and the `example.com` leaf material. -/
theorem cert_issuance_idempotent_witness :
    (({ fs := { dirCreated := true,
                files := [(CertPath.caKey, "k"), (CertPath.caCert, "c"),
                          (CertPath.hostKey "example.com", "hk"),
                          (CertPath.hostCert "example.com", "hc")] },
        seed := 0 } : CertState).fs.dirCreated = true)
    ∧ (({ fs := { dirCreated := true,
                  files := [(CertPath.caKey, "k"), (CertPath.caCert, "c"),
                            (CertPath.hostKey "example.com", "hk"),
                            (CertPath.hostCert "example.com", "hc")] },
          seed := 0 } : CertState).fs.existsFile .caKey = true)
    ∧ generateCACert "/home/u"
        { fs := { dirCreated := true,
                  files := [(CertPath.caKey, "k"), (CertPath.caCert, "c"),
                            (CertPath.hostKey "example.com", "hk"),
                            (CertPath.hostCert "example.com", "hc")] },
          seed := 0 }
        = ({ key := CertPath.caKey.toPathStr "/home/u",
             cert := CertPath.caCert.toPathStr "/home/u",
             dir := certDirStr "/home/u" },
           { fs := { dirCreated := true,
                     files := [(CertPath.caKey, "k"), (CertPath.caCert, "c"),
                               (CertPath.hostKey "example.com", "hk"),
                               (CertPath.hostCert "example.com", "hc")] },
             seed := 0 }, [])
    ∧ generateHostCert "/home/u" "example.com"
        { fs := { dirCreated := true,
                  files := [(CertPath.caKey, "k"), (CertPath.caCert, "c"),
                            (CertPath.hostKey "example.com", "hk"),
                            (CertPath.hostCert "example.com", "hc")] },
          seed := 0 }
        = (((CertPath.hostKey "example.com").toPathStr "/home/u",
            (CertPath.hostCert "example.com").toPathStr "/home/u"),
           { fs := { dirCreated := true,
                     files := [(CertPath.caKey, "k"), (CertPath.caCert, "c"),
                               (CertPath.hostKey "example.com", "hk"),
                               (CertPath.hostCert "example.com", "hc")] },
             seed := 0 }, []) :=
  ⟨rfl, by decide,
   cert_issuance_idempotent.2.2.1 "/home/u" _ rfl (by decide) (by decide),
   cert_issuance_idempotent.2.2.2 "/home/u" "example.com" _ rfl (by decide) (by decide)⟩

/-- **C7**: a plain HTTP request whose URL does not parse is answered with
status `400` and body `Invalid URL`; nothing is sent upstream, the
exchange's response stays unset, and the `request` event is still the first
emitted action. -/
theorem invalid_url_400 (id : String) (st : Int) (m url : String)
    (hdrs : List (String × String)) (rb : String) (oc : UpstreamOutcome) :
    (handleRequest id st m url hdrs rb { parsedUrl := none, outcome := oc }).1
      = [Ev.reqEv id, Ev.clientHead 400, Ev.clientEndB "Invalid URL"]
    ∧ (∀ (h : String) (p : Int),
        Ev.upstreamConnect h p ∉ (handleRequest id st m url hdrs rb
          { parsedUrl := none, outcome := oc }).1)
    ∧ (handleRequest id st m url hdrs rb
        { parsedUrl := none, outcome := oc }).2.response = none := by
  refine ⟨rfl, ?_, rfl⟩
  intro h p
  simp [handleRequest]

/-- Witness for C7 at a concrete unparseable-URL exchange. -/
theorem invalid_url_400_witness :
    (handleRequest "req_1" 0 "GET" "not a url" [] ""
        { parsedUrl := none, outcome := .failure "x" }).1
      = [Ev.reqEv "req_1", Ev.clientHead 400, Ev.clientEndB "Invalid URL"]
    ∧ (∀ (h : String) (p : Int),
        Ev.upstreamConnect h p ∉ (handleRequest "req_1" 0 "GET" "not a url" [] ""
          { parsedUrl := none, outcome := .failure "x" }).1)
    ∧ (handleRequest "req_1" 0 "GET" "not a url" [] ""
        { parsedUrl := none, outcome := .failure "x" }).2.response = none :=
  invalid_url_400 "req_1" 0 "GET" "not a url" [] "" (.failure "x")

/-- **C8** (counterexample): after `start`, the root-certificate export
returns `null`, not a path: `start` always sets `this.caCert = null`
("Skip CA certificate - we'll use tunnel mode for HTTPS"), and
`getCACertPath()` returns `this.caCert ? getCACertPath() : null`. -/
theorem ca_export_counterexample :
    ProxyServer.getCACertPath "/home/u" (ProxyServer.start ProxyServer.mkNew) = none
    ∧ getProxyCACertPath "/home/u" (some (ProxyServer.start ProxyServer.mkNew)) = none :=
  ⟨rfl, rfl⟩

/-- **C8** (amended): after `start` the export operations return `none`,
because `start` unconditionally disables MITM; the server-level export
returns the certificate module's root-certificate path exactly when the
`caCert` field is set. -/
theorem ca_export_after_start (home : String) (s : ProxyState) :
    ProxyServer.getCACertPath home (ProxyServer.start s) = none
    ∧ getProxyCACertPath home (some (ProxyServer.start s)) = none
    ∧ (∀ kc : String × String,
        ProxyServer.getCACertPath home { s with caCert := some kc }
          = some (DevLens.getCACertPath home)) :=
  ⟨rfl, rfl, fun _ => rfl⟩

/-- **C9**: on every completing path — plain HTTP success, tunnel
establishment, MITM establishment, and MITM child success — the captured
`response.duration` equals the completion instant minus the exchange's
start instant, and is nonnegative whenever the clock did not run
backwards. -/
theorem duration_nonneg :
    (∀ (id : String) (st : Int) (m url : String) (hdrs : List (String × String))
        (rb : String) (u : URLParts) (status : Option Nat) (stTxt : Option String)
        (rh : List (String × String)) (rbody : String) (endT : Int),
        st ≤ endT →
        ∃ r : RespInfo,
          (handleRequest id st m url hdrs rb
              { parsedUrl := some u,
                outcome := .success status stTxt rh rbody endT }).2.response = some r
          ∧ r.duration = endT - st ∧ 0 ≤ r.duration)
    ∧ (∀ (req : NetworkRequest) (hostname : String) (tp : Int) (head msg : String)
        (ct : Int),
        req.timestamp ≤ ct →
        ∃ r : RespInfo,
          (handleHttpsTunnel req hostname tp head
              { dialOk := true, dialErrMsg := msg, connectTime := ct }).2.response = some r
          ∧ r.duration = ct - req.timestamp ∧ 0 ≤ r.duration)
    ∧ (∀ (req : NetworkRequest) (hostname : String) (tp : Int) (head : String)
        (mt : Int) (tun : TunnelScenario),
        req.timestamp ≤ mt →
        ∃ r : RespInfo,
          (handleHttpsWithMitm req hostname tp head
              { certOk := true, mitmTime := mt, tunnel := tun }).2.response = some r
          ∧ r.duration = mt - req.timestamp ∧ 0 ≤ r.duration)
    ∧ (∀ (id : String) (st : Int) (hostname : String) (port : Int) (dataStr : String)
        (status : Option Nat) (stTxt : Option String) (rh : List (String × String))
        (rbody : String) (endT : Int),
        st ≤ endT →
        ∃ r : RespInfo,
          (handleHttpsRequest id st hostname port dataStr
              (.success status stTxt rh rbody endT)).2.response = some r
          ∧ r.duration = endT - st ∧ 0 ≤ r.duration) := by
  refine ⟨?_, ?_, ?_, ?_⟩
  · intro id st m url hdrs rb u status stTxt rh rbody endT h
    exact ⟨_, rfl, rfl, Int.sub_nonneg.mpr h⟩
  · intro req hostname tp head msg ct h
    exact ⟨_, rfl, rfl, Int.sub_nonneg.mpr h⟩
  · intro req hostname tp head mt tun h
    exact ⟨_, rfl, rfl, Int.sub_nonneg.mpr h⟩
  · intro id st hostname port dataStr status stTxt rh rbody endT h
    exact ⟨_, rfl, rfl, Int.sub_nonneg.mpr h⟩

/-- Witness for C9 at concrete inputs on all four completing paths. -/
theorem duration_nonneg_witness :
    ((0 : Int) ≤ 5) ∧ ((4 : Int) ≤ 9)
    ∧ (∃ r : RespInfo,
        (handleRequest "req_1" 0 "GET" "http://example.com/a" [] ""
            { parsedUrl := some { hostname := "example.com", port := none,
                                  pathname := "/a", search := "" },
              outcome := .success (some 200) (some "OK") [] "B" 5 }).2.response = some r
        ∧ r.duration = 5 - 0 ∧ 0 ≤ r.duration)
    ∧ (∃ r : RespInfo,
        (handleHttpsTunnel
            { id := "req_2", method := "CONNECT", url := "https://example.com:443",
              headers := [], body := none, timestamp := 4, response := none }
            "example.com" 443 "" { dialOk := true, dialErrMsg := "", connectTime := 9 }).2.response
          = some r
        ∧ r.duration = 9 - ({ id := "req_2", method := "CONNECT",
                              url := "https://example.com:443", headers := [],
                              body := none, timestamp := 4,
                              response := none } : NetworkRequest).timestamp
        ∧ 0 ≤ r.duration)
    ∧ (∃ r : RespInfo,
        (handleHttpsWithMitm
            { id := "req_2", method := "CONNECT", url := "https://example.com:443",
              headers := [], body := none, timestamp := 4, response := none }
            "example.com" 443 ""
            { certOk := true, mitmTime := 9,
              tunnel := { dialOk := true, dialErrMsg := "", connectTime := 9 } }).2.response
          = some r
        ∧ r.duration = 9 - ({ id := "req_2", method := "CONNECT",
                              url := "https://example.com:443", headers := [],
                              body := none, timestamp := 4,
                              response := none } : NetworkRequest).timestamp
        ∧ 0 ≤ r.duration)
    ∧ (∃ r : RespInfo,
        (handleHttpsRequest "req_3" 0 "example.com" 443
            "GET /a HTTP/1.1\r\nhost: example.com\r\n\r\n"
            (.success (some 200) (some "OK") [] "B" 5)).2.response = some r
        ∧ r.duration = 5 - 0 ∧ 0 ≤ r.duration) :=
  ⟨by decide, by decide,
   duration_nonneg.1 "req_1" 0 "GET" "http://example.com/a" []
     "" { hostname := "example.com", port := none, pathname := "/a", search := "" }
     (some 200) (some "OK") [] "B" 5 (by decide),
   duration_nonneg.2.1
     { id := "req_2", method := "CONNECT", url := "https://example.com:443",
       headers := [], body := none, timestamp := 4, response := none }
     "example.com" 443 "" "" 9 (by decide),
   duration_nonneg.2.2.1
     { id := "req_2", method := "CONNECT", url := "https://example.com:443",
       headers := [], body := none, timestamp := 4, response := none }
     "example.com" 443 "" 9 { dialOk := true, dialErrMsg := "", connectTime := 9 }
     (by decide),
   duration_nonneg.2.2.2 "req_3" 0 "example.com" 443
     "GET /a HTTP/1.1\r\nhost: example.com\r\n\r\n"
     (some 200) (some "OK") [] "B" 5 (by decide)⟩

/-- **C10** (counterexample): the CONNECT target `example.com:-5` has a
port text that does not parse to a positive integer, yet the proxy dials
port `-5`, not `443`: `parseInt("-5")` is `-5`, which is truthy, so the
`|| 443` fallback is not taken. -/
theorem connect_port_counterexample :
    (connectTarget "example.com:-5").2 = -5
    ∧ (connectTarget "example.com:-5").2 ≠ 443 :=
  ⟨by decide, by decide⟩

/-- **C10** (amended): the upstream hostname is the target text before the
first `:`.  The dial port is `443` when the target has no `:` at all, and
otherwise is determined by JavaScript `parseInt` of the port text: `443`
when `parseInt` yields `NaN` or `0`, and the (possibly negative, possibly
prefix-parsed) `parseInt` value otherwise. -/
theorem connect_target_semantics :
    (∀ url : String,
        (connectTarget url).1 = ⟨url.data.takeWhile (fun c => !(c == ':'))⟩)
    ∧ (∀ url : String, (':') ∉ url.data → connectTarget url = (url, 443))
    ∧ (∀ host p : String, (':') ∉ host.data → (':') ∉ p.data →
        (connectTarget (host ++ ":" ++ p)).1 = host
        ∧ (jsParseInt p = none → (connectTarget (host ++ ":" ++ p)).2 = 443)
        ∧ (jsParseInt p = some 0 → (connectTarget (host ++ ":" ++ p)).2 = 443)
        ∧ (∀ v : Int, jsParseInt p = some v → v ≠ 0 →
            (connectTarget (host ++ ":" ++ p)).2 = v)) := by
  refine ⟨?_, ?_, ?_⟩
  · intro url
    show (⟨(splitChar ':' url.data).headD []⟩ : String) = _
    rw [splitChar_headD]
  · intro url hcolon
    have hsc := splitChar_no_sep ':' url.data hcolon
    unfold connectTarget
    rw [hsc]
    rfl
  · intro host p hh hp
    have hdata : (host ++ ":" ++ p).data = host.data ++ (':') :: p.data := by
      rw [String.data_append, String.data_append]
      simp
    have hct := connectTarget_eq_of_parts (host ++ ":" ++ p) host.data p.data
      (by rw [hdata, splitChar_append ':' host.data p.data hh,
              splitChar_no_sep ':' p.data hp])
    have hmkh : (⟨host.data⟩ : String) = host := rfl
    have hmkp : (⟨p.data⟩ : String) = p := rfl
    rw [hmkh, hmkp] at hct
    refine ⟨?_, ?_, ?_, ?_⟩
    · rw [hct]
    · intro hN
      rw [hct, hN]
    · intro hZ
      rw [hct, hZ]
      simp
    · intro v hv hvz
      rw [hct, hv]
      exact if_neg hvz

/-- Witness for C10 (amended) at `example.com` with port text `8443`. -/
theorem connect_target_semantics_witness :
    ((':') ∉ "example.com".data) ∧ ((':') ∉ "8443".data)
    ∧ jsParseInt "8443" = some 8443 ∧ ((8443 : Int) ≠ 0)
    ∧ (connectTarget ("example.com" ++ ":" ++ "8443")).1 = "example.com"
    ∧ (connectTarget ("example.com" ++ ":" ++ "8443")).2 = 8443 :=
  ⟨by decide, by decide, by decide, by decide,
   (connect_target_semantics.2.2 "example.com" "8443" (by decide) (by decide)).1,
   (connect_target_semantics.2.2 "example.com" "8443" (by decide) (by decide)).2.2.2
     8443 (by decide) (by decide)⟩

end DevLens
